import Mathlib

/-!
# Verification of the March-Madness pick & scoring engine

Shallow embedding of the backend's pick-submission, grading, leaderboard
and week-window logic (from `march_madness_backend/main.py`), together
with theorems settling the specification's claims about it.

Timestamps are modelled as whole minutes on a single axis.  For the
week-window computation the code converts UTC timestamps to
America/New_York wall-clock time and does all of its arithmetic there
(Python datetime arithmetic on aware datetimes is wall-clock); we model
that wall-clock axis directly, with minute 0 at a Monday 00:00 so that
`t / 1440 % 7` reproduces Python's `weekday()` convention
(Monday = 0, Tuesday = 1).
-/

namespace MarchMadness

/-- Minutes in a day. -/
def minutesPerDay : Nat := 1440

/-- Minutes in a week. -/
def minutesPerWeek : Nat := 10080

/-- Python `dt.weekday()`: day-of-week of a wall-clock minute timestamp,
Monday = 0 … Sunday = 6 (epoch minute 0 is a Monday 00:00). -/
def weekday (t : Nat) : Nat := (t / 1440) % 7

/-- Python `dt.hour`: hour-of-day of a wall-clock minute timestamp. -/
def hourOfDay (t : Nat) : Nat := (t % 1440) / 60

/-- `days_since_tuesday` as computed in `get_game_week_bounds`:
`(weekday - 1) % 7`, overridden to `7` when the timestamp is a Tuesday
before 03:00 (such a Tuesday belongs to the previous week). -/
def daysSinceTuesday (t : Nat) : Nat :=
  if weekday t = 1 ∧ hourOfDay t < 3 then 7 else (weekday t + 6) % 7

/-- `get_game_week_bounds(game_date)`: subtract `days_since_tuesday`
whole days, replace the time of day by 03:00, and end the window seven
days later.  Returns `(week_start, week_end)`; the window is
`[week_start, week_end)`. -/
def get_game_week_bounds (t : Nat) : Nat × Nat :=
  let d := daysSinceTuesday t
  let week_start := 1440 * (t / 1440 - d) + 180
  (week_start, week_start + 10080)

/-- A wall-clock minute timestamp that is a Tuesday at exactly 03:00. -/
def isTuesday3am (s : Nat) : Prop := (s / 1440) % 7 = 1 ∧ s % 1440 = 180

instance (s : Nat) : Decidable (isTuesday3am s) := by
  unfold isTuesday3am; infer_instance

/-- The week-overlap test used by `submit_pick`
(`not (a_start >= b_end or a_end <= b_start)` on `[start, end)` pairs). -/
def weeksOverlap (a b : Nat × Nat) : Bool :=
  !(decide (a.1 ≥ b.2) || decide (a.2 ≤ b.1))

/-- C4: for every game timestamp (at least one week after the epoch, so
that the wall-clock day arithmetic does not underflow), the computed
week window starts at the most recent Tuesday 03:00 at or before the
timestamp — in particular a Tuesday before 03:00 falls in the previous
week — and ends exactly seven days later. -/
theorem get_game_week_bounds_correct (t : Nat) (ht : 10080 ≤ t) :
    isTuesday3am (get_game_week_bounds t).1 ∧
    (get_game_week_bounds t).1 ≤ t ∧
    (∀ u, isTuesday3am u → u ≤ t → u ≤ (get_game_week_bounds t).1) ∧
    (get_game_week_bounds t).2 = (get_game_week_bounds t).1 + 10080 := by
  dsimp only [get_game_week_bounds, daysSinceTuesday, weekday, hourOfDay, isTuesday3am]
  refine ⟨?_, ?_, ?_, rfl⟩
  · split_ifs <;> omega
  · split_ifs <;> omega
  · intro u hu hut
    obtain ⟨hu1, hu2⟩ := hu
    split_ifs <;> omega

/-- Witness for C4 at the concrete timestamp 20000 (a Sunday 21:20 in
week 1 of the model's calendar). -/
theorem get_game_week_bounds_correct_witness :
    isTuesday3am (get_game_week_bounds 20000).1 ∧
    (get_game_week_bounds 20000).1 ≤ 20000 ∧
    (∀ u, isTuesday3am u → u ≤ 20000 → u ≤ (get_game_week_bounds 20000).1) ∧
    (get_game_week_bounds 20000).2 = (get_game_week_bounds 20000).1 + 10080 :=
  get_game_week_bounds_correct 20000 (by decide)

/-! ## Data model

The tables `games`, `picks`, `tiebreaker_picks` and `leaderboard`
(§3 of the schema), each modelled as a list of rows.  `points_awarded`
on a pick is an SQL integer; on a tiebreaker pick it is a float, which
we model as a rational. -/

structure Game where
  id : Nat
  home_team : String
  away_team : String
  spread : Rat
  game_date : Nat
  winning_team : Option String
deriving Repr, DecidableEq

structure Pick where
  user_id : Nat
  game_id : Nat
  picked_team : String
  lock : Bool
  points_awarded : Int
deriving Repr, DecidableEq

structure TiebreakerPick where
  user_id : Nat
  tiebreaker_id : Nat
  answer : String
  points_awarded : Rat
deriving Repr, DecidableEq

structure LeaderboardRow where
  user_id : Nat
  total_points : Rat
deriving Repr, DecidableEq

@[ext]
structure DBState where
  games : List Game
  picks : List Pick
  tiebreaker_picks : List TiebreakerPick
  leaderboard : List LeaderboardRow
deriving Repr, DecidableEq

/-! ## Scoring (`update_game_scores`) -/

/-- PostgreSQL `TRIM(TRAILING ' *' FROM s)`: remove the longest trailing
run consisting only of the characters of `' *'` — i.e. spaces and
asterisks.  (The second argument of `TRIM` is a character *set*, not a
literal suffix.) -/
def trimTrailingSpaceStar (s : String) : String :=
  ⟨(s.data.reverse.dropWhile fun c => c = ' ' || c = '*').reverse⟩

/-- The `CASE` expression of the non-PUSH `UPDATE picks` statement in
`update_game_scores`: 2 for a correct locked pick, 1 for a correct
regular pick, 0 otherwise, where "correct" compares the
`TRIM(TRAILING ' *')`-normalized team names. -/
def scorePoints (picked_team : String) (lock : Bool) (winning_team : String) : Int :=
  if trimTrailingSpaceStar picked_team = trimTrailingSpaceStar winning_team ∧ lock = true then 2
  else if trimTrailingSpaceStar picked_team = trimTrailingSpaceStar winning_team ∧ lock = false then 1
  else 0

/-- `update_game_scores(cursor, game_id, winning_team)`: the PUSH branch
zeroes `points_awarded` on every pick of the game; the regular branch
sets it by the `CASE` expression (`scorePoints`).  Returns the new
state together with the `RETURNING` rows (all picks of the game). -/
def update_game_scores (st : DBState) (game_id : Nat) (winning_team : String) :
    DBState × List Pick :=
  let picks' :=
    if winning_team = "PUSH" then
      st.picks.map fun p =>
        if p.game_id = game_id then { p with points_awarded := 0 } else p
    else
      st.picks.map fun p =>
        if p.game_id = game_id then
          { p with points_awarded := scorePoints p.picked_team p.lock winning_team }
        else p
  let affected_picks := picks'.filter fun p => p.game_id = game_id
  ({ st with picks := picks' }, affected_picks)

/-- Modelled from the spec's words only (used to compare against the
source's behaviour): normalization that trims one trailing `" *"`
marker *suffix*, as claim C1 describes it. -/
def specSuffixNormalize (s : String) : String :=
  match s.data.reverse with
  | '*' :: ' ' :: rest => ⟨rest.reverse⟩
  | _ => s

/-- The points formula exactly as claim C1 words it, i.e. with the
suffix-trimming normalization. -/
def specSuffixScorePoints (picked_team : String) (lock : Bool) (winning_team : String) : Int :=
  if specSuffixNormalize picked_team = specSuffixNormalize winning_team ∧ lock = true then 2
  else if specSuffixNormalize picked_team = specSuffixNormalize winning_team ∧ lock = false then 1
  else 0

/-- C1 fails as stated: `TRIM(TRAILING ' *')` removes every trailing
space and asterisk, not just one literal `" *"` suffix.  Concretely,
grading the single pick `picked_team = "A "` (trailing space),
`lock = false` with `winning_team = "A"` awards 1 point, while the
claim's suffix normalization leaves `"A "` unequal to `"A"` and so
demands 0 points. -/
theorem update_game_scores_not_suffix_normalized :
    ¬ (∀ (st : DBState) (gid : Nat) (w : String), w ≠ "PUSH" →
        ∀ p ∈ (update_game_scores st gid w).1.picks, p.game_id = gid →
          p.points_awarded = specSuffixScorePoints p.picked_team p.lock w) := by
  intro h
  have := h ⟨[⟨1, "A", "B", 0, 20000, none⟩], [⟨1, 1, "A ", false, 0⟩], [], []⟩
      1 "A" (by decide) ⟨1, 1, "A ", false, 1⟩ (by decide) rfl
  revert this
  decide

/-- C1 (amended): for every pick on a game graded with a non-PUSH
`winning_team`, `update_game_scores` sets `points_awarded` to exactly
`scorePoints picked_team lock winning_team` — a pure function of those
three values — which is 2 when the normalized names match and the pick
is locked, 1 when they match and it is not locked, and 0 otherwise,
where normalization removes the longest trailing run of space and
asterisk characters (PostgreSQL `TRIM(TRAILING ' *')`); in particular
the value is always one of {0, 1, 2}. -/
theorem update_game_scores_points_formula (st : DBState) (gid : Nat) (w : String)
    (hw : w ≠ "PUSH") :
    ∀ p ∈ (update_game_scores st gid w).1.picks, p.game_id = gid →
      p.points_awarded = scorePoints p.picked_team p.lock w ∧
      (p.points_awarded = 0 ∨ p.points_awarded = 1 ∨ p.points_awarded = 2) ∧
      (p.points_awarded = 2 ↔
        (trimTrailingSpaceStar p.picked_team = trimTrailingSpaceStar w ∧ p.lock = true)) ∧
      (p.points_awarded = 1 ↔
        (trimTrailingSpaceStar p.picked_team = trimTrailingSpaceStar w ∧ p.lock = false)) := by
  intro p hp hpg
  simp only [update_game_scores, if_neg hw, List.mem_map] at hp
  obtain ⟨q, hq, rfl⟩ := hp
  by_cases hg : q.game_id = gid
  · simp only [if_pos hg]
    unfold scorePoints
    split_ifs with h1 h2 <;> simp_all
  · simp only [if_neg hg] at hpg ⊢
    exact absurd hpg hg

/-- Witness for the amended C1 at a concrete graded pick
(`"Duke *"` locked, winner `"Duke"`: 2 points). -/
theorem update_game_scores_points_formula_witness :
    ("Duke" ≠ "PUSH") ∧
    ((⟨7, 3, "Duke *", true, 2⟩ : Pick) ∈
      (update_game_scores ⟨[⟨3, "Duke", "UNC", 0, 20000, none⟩],
        [⟨7, 3, "Duke *", true, 0⟩], [], []⟩ 3 "Duke").1.picks) ∧
    ((⟨7, 3, "Duke *", true, 2⟩ : Pick).points_awarded =
        scorePoints "Duke *" true "Duke" ∧
      ((2 : Int) = 0 ∨ (2 : Int) = 1 ∨ (2 : Int) = 2) ∧
      ((2 : Int) = 2 ↔ (trimTrailingSpaceStar "Duke *" = trimTrailingSpaceStar "Duke" ∧ true = true)) ∧
      ((2 : Int) = 1 ↔ (trimTrailingSpaceStar "Duke *" = trimTrailingSpaceStar "Duke" ∧ true = false))) :=
  ⟨by decide, by decide,
    update_game_scores_points_formula
      ⟨[⟨3, "Duke", "UNC", 0, 20000, none⟩], [⟨7, 3, "Duke *", true, 0⟩], [], []⟩
      3 "Duke" (by decide) ⟨7, 3, "Duke *", true, 2⟩ (by decide) rfl⟩

/-- C8: grading a game as `"PUSH"` zeroes `points_awarded` on every
pick of that game, whatever the pick's team, lock flag or previous
points were. -/
theorem update_game_scores_push_zeroes (st : DBState) (gid : Nat) :
    ∀ p ∈ (update_game_scores st gid "PUSH").1.picks, p.game_id = gid →
      p.points_awarded = 0 := by
  intro p hp hpg
  simp only [update_game_scores, reduceIte, List.mem_map] at hp
  obtain ⟨q, hq, rfl⟩ := hp
  by_cases hg : q.game_id = gid
  · simp [if_pos hg]
  · simp only [if_neg hg] at hpg ⊢
    exact absurd hpg hg

/-- Witness for C8 at a concrete locked pick that previously had 2
points. -/
theorem update_game_scores_push_zeroes_witness :
    ((⟨7, 3, "Duke *", true, 0⟩ : Pick) ∈
      (update_game_scores ⟨[⟨3, "Duke", "UNC", 0, 20000, some "Duke"⟩],
        [⟨7, 3, "Duke *", true, 2⟩], [], []⟩ 3 "PUSH").1.picks) ∧
    ((⟨7, 3, "Duke *", true, 0⟩ : Pick).points_awarded = 0) :=
  ⟨by decide,
    update_game_scores_push_zeroes
      ⟨[⟨3, "Duke", "UNC", 0, 20000, some "Duke"⟩], [⟨7, 3, "Duke *", true, 2⟩], [], []⟩
      3 ⟨7, 3, "Duke *", true, 0⟩ (by decide) rfl⟩

/-! ## Leaderboard recomputation (`update_leaderboard_totals`) and
grading (`/update_score` transaction core) -/

/-- `SELECT COALESCE(SUM(points_awarded), 0) FROM picks WHERE user_id = u`. -/
def userPickSum (picks : List Pick) (u : Nat) : Int :=
  ((picks.filter fun p => p.user_id = u).map Pick.points_awarded).sum

/-- `SELECT COALESCE(SUM(points_awarded), 0) FROM tiebreaker_picks WHERE user_id = u`. -/
def userTiebreakerSum (tbs : List TiebreakerPick) (u : Nat) : Rat :=
  ((tbs.filter fun p => p.user_id = u).map TiebreakerPick.points_awarded).sum

/-- The total written by `update_leaderboard_totals`' UPDATE for one
user: picks sum plus tiebreaker-picks sum. -/
def recomputedTotal (st : DBState) (u : Nat) : Rat :=
  (userPickSum st.picks u : Rat) + userTiebreakerSum st.tiebreaker_picks u

/-- `update_leaderboard_totals(cursor, affected_users)`.  The Python
loop issues one single-row UPDATE per user id; each UPDATE reads only
the pick tables, which the loop never modifies, so a simultaneous map
is equivalent, and `∈` makes duplicated user ids harmless. -/
def update_leaderboard_totals (st : DBState) (affected_users : List Nat) : DBState :=
  { st with
    leaderboard := st.leaderboard.map fun r =>
      if r.user_id ∈ affected_users then
        { r with total_points := recomputedTotal st r.user_id }
      else r }

/-- `UPDATE games SET winning_team = %s WHERE id = %s` (from
`update_score`). -/
def set_winning_team (st : DBState) (gid : Nat) (w : String) : DBState :=
  { st with games := st.games.map fun g =>
      if g.id = gid then { g with winning_team := some w } else g }

/-- The grading transaction performed by `/update_score` after the
game-existence check: record the winner, rescore the game's picks with
`update_game_scores`, and resync the leaderboard for the users of the
returned picks (`list(set(...))` deduplication is immaterial under the
membership test of `update_leaderboard_totals`). -/
def grade_game (st : DBState) (gid : Nat) (w : String) : DBState :=
  let st1 := set_winning_team st gid w
  let scored := update_game_scores st1 gid w
  let affected_users := scored.2.map Pick.user_id
  update_leaderboard_totals scored.1 affected_users

/-! ### Helpers for reasoning about `grade_game` -/

/-- Per-game-row effect of `set_winning_team`. -/
def setWinFn (gid : Nat) (w : String) (g : Game) : Game :=
  if g.id = gid then { g with winning_team := some w } else g

/-- Per-pick effect of `update_game_scores` (both branches). -/
def gradePickFn (gid : Nat) (w : String) (p : Pick) : Pick :=
  if p.game_id = gid then
    { p with points_awarded := if w = "PUSH" then 0 else scorePoints p.picked_team p.lock w }
  else p

/-- The affected-user set collected from the `RETURNING` rows. -/
def gradedUsers (st : DBState) (gid : Nat) (w : String) : List Nat :=
  (((st.picks.map (gradePickFn gid w)).filter fun p => p.game_id = gid).map Pick.user_id)

/-- The total `update_leaderboard_totals` writes for user `u` during
`grade_game st gid w`. -/
def gradedTotal (st : DBState) (gid : Nat) (w : String) (u : Nat) : Rat :=
  (userPickSum (st.picks.map (gradePickFn gid w)) u : Rat) +
    userTiebreakerSum st.tiebreaker_picks u

/-- Per-leaderboard-row effect of `grade_game`. -/
def gradeLbFn (st : DBState) (gid : Nat) (w : String) (r : LeaderboardRow) : LeaderboardRow :=
  if r.user_id ∈ gradedUsers st gid w then
    { r with total_points := gradedTotal st gid w r.user_id }
  else r

lemma update_game_scores_fst_picks (st : DBState) (gid : Nat) (w : String) :
    (update_game_scores st gid w).1.picks = st.picks.map (gradePickFn gid w) := by
  by_cases hw : w = "PUSH" <;>
    simp [update_game_scores, hw, gradePickFn]

lemma grade_game_games (st : DBState) (gid : Nat) (w : String) :
    (grade_game st gid w).games = st.games.map (setWinFn gid w) := by
  by_cases hw : w = "PUSH" <;>
    simp [grade_game, update_leaderboard_totals, update_game_scores, set_winning_team, setWinFn, hw]

lemma grade_game_picks (st : DBState) (gid : Nat) (w : String) :
    (grade_game st gid w).picks = st.picks.map (gradePickFn gid w) := by
  by_cases hw : w = "PUSH" <;>
    simp [grade_game, update_leaderboard_totals, update_game_scores, set_winning_team,
      gradePickFn, hw]

lemma grade_game_tiebreaker_picks (st : DBState) (gid : Nat) (w : String) :
    (grade_game st gid w).tiebreaker_picks = st.tiebreaker_picks := by
  by_cases hw : w = "PUSH" <;>
    simp [grade_game, update_leaderboard_totals, update_game_scores, set_winning_team, hw]

lemma update_game_scores_fst (st : DBState) (gid : Nat) (w : String) :
    (update_game_scores st gid w).1 = { st with picks := st.picks.map (gradePickFn gid w) } := by
  ext1
  · by_cases hw : w = "PUSH" <;> simp [update_game_scores, hw]
  · rw [update_game_scores_fst_picks]
  · by_cases hw : w = "PUSH" <;> simp [update_game_scores, hw]
  · by_cases hw : w = "PUSH" <;> simp [update_game_scores, hw]

lemma update_game_scores_snd (st : DBState) (gid : Nat) (w : String) :
    (update_game_scores st gid w).2
      = (st.picks.map (gradePickFn gid w)).filter fun p => p.game_id = gid := by
  show ((update_game_scores st gid w).1.picks).filter (fun p => p.game_id = gid) = _
  rw [update_game_scores_fst_picks]

lemma grade_game_leaderboard (st : DBState) (gid : Nat) (w : String) :
    (grade_game st gid w).leaderboard = st.leaderboard.map (gradeLbFn st gid w) := by
  unfold grade_game
  dsimp only
  rw [update_game_scores_fst, update_game_scores_snd]
  rfl

lemma map_map_eq_map_of_idem {α : Type} (f : α → α) (hf : ∀ x, f (f x) = f x)
    (l : List α) : (l.map f).map f = l.map f := by
  induction l with
  | nil => rfl
  | cons x xs ih => simp only [List.map_cons, ih, hf]

lemma setWinFn_idem (gid : Nat) (w : String) (g : Game) :
    setWinFn gid w (setWinFn gid w g) = setWinFn gid w g := by
  unfold setWinFn
  by_cases h : g.id = gid <;> simp [h]

lemma gradePickFn_idem (gid : Nat) (w : String) (p : Pick) :
    gradePickFn gid w (gradePickFn gid w p) = gradePickFn gid w p := by
  unfold gradePickFn
  by_cases h : p.game_id = gid <;> simp [h]

lemma gradePickFn_map_idem (st : DBState) (gid : Nat) (w : String) :
    ((st.picks.map (gradePickFn gid w)).map (gradePickFn gid w))
      = st.picks.map (gradePickFn gid w) :=
  map_map_eq_map_of_idem _ (gradePickFn_idem gid w) _

/-- C7: grading a game twice with the same `winning_team` (set winner,
rescore picks, resync leaderboard) leaves exactly the state produced by
grading it once — the picks' `points_awarded` and the leaderboard's
`total_points` are unchanged by the second run. -/
theorem grade_game_idempotent (st : DBState) (gid : Nat) (w : String) :
    grade_game (grade_game st gid w) gid w = grade_game st gid w := by
  have husers : gradedUsers (grade_game st gid w) gid w = gradedUsers st gid w := by
    unfold gradedUsers
    rw [grade_game_picks, gradePickFn_map_idem]
  have htotal : ∀ u, gradedTotal (grade_game st gid w) gid w u = gradedTotal st gid w u := by
    intro u
    unfold gradedTotal
    rw [grade_game_picks, gradePickFn_map_idem, grade_game_tiebreaker_picks]
  have hlbfn : ∀ r, gradeLbFn (grade_game st gid w) gid w r = gradeLbFn st gid w r := by
    intro r
    unfold gradeLbFn
    rw [husers, htotal]
  ext1
  · rw [grade_game_games, grade_game_games,
      map_map_eq_map_of_idem _ (setWinFn_idem gid w)]
  · rw [grade_game_picks, grade_game_picks, gradePickFn_map_idem]
  · rw [grade_game_tiebreaker_picks, grade_game_tiebreaker_picks]
  · rw [grade_game_leaderboard, grade_game_leaderboard, funext hlbfn,
      map_map_eq_map_of_idem]
    intro r
    unfold gradeLbFn
    by_cases h : r.user_id ∈ gradedUsers st gid w <;> simp [h]

/-! ## HTTP layer: errors, authentication, transactions -/

/-- `HTTPException(status_code, detail)`. -/
structure Err where
  status : Nat
  detail : String
deriving Repr, DecidableEq

/-- The authenticated-caller record (relevant fields of `users`). -/
structure User where
  id : Nat
  admin : Bool
  make_picks : Bool
deriving Repr, DecidableEq

/-- `get_current_admin_user`: the FastAPI dependency used by the admin
routes — 401 when the token does not resolve to a user, 403 when the
user is not an admin.  (`none` models an unauthenticated caller.) -/
def get_current_admin_user (caller : Option User) : Except Err User :=
  match caller with
  | none => .error ⟨401, "Could not validate credentials"⟩
  | some u => if u.admin then .ok u else .error ⟨403, "Not enough permissions"⟩

/-- `get_db_cursor(commit=...)`: run the transaction body on the
current state; on success commit the body's state (when `commit` is
set), on any exception roll the connection back, leaving the initial
state.  Returns the resulting database state and the body's result. -/
def get_db_cursor {α : Type} (commit : Bool) (st : DBState)
    (body : DBState → Except Err (DBState × α)) : DBState × Except Err α :=
  match body st with
  | .ok (st', r) => (if commit then st' else st, .ok r)
  | .error e => (st, .error e)

/-! ## `POST /update_score` -/

/-- The `/update_score` transaction body: 404 if the game is absent,
otherwise record the winner, rescore and resync (`grade_game`). -/
def update_score_body (game_id : Nat) (winning_team : String) (st : DBState) :
    Except Err (DBState × String) :=
  match st.games.find? fun g => g.id = game_id with
  | none => .error ⟨404, "Game not found"⟩
  | some _ => .ok (grade_game st game_id winning_team, "Scores updated successfully")

/-- `POST /update_score`.  The route is declared as
`def update_score(result: GameResult)` with *no* authentication
dependency, so the request is processed whoever the caller is; the
handler's blanket `except Exception` converts any raised error
(including the 404) into a 500 with the same detail. -/
def update_score (_caller : Option User) (st : DBState) (game_id : Nat)
    (winning_team : String) : DBState × Except Err String :=
  let run := get_db_cursor true st (update_score_body game_id winning_team)
  (run.1, match run.2 with
    | .ok v => .ok v
    | .error e => .error ⟨500, e.detail⟩)

/-! ## `DELETE /games/{game_id}` -/

/-- The `delete_game` transaction body: 404 if the game is absent;
otherwise delete the game (its picks go with it via `ON DELETE
CASCADE`) and then rewrite **every** leaderboard row as
`total_points = COALESCE(SUM(points_awarded), 0) FROM picks` — note
that, unlike `update_leaderboard_totals`, this UPDATE does not add the
`tiebreaker_picks` sum. -/
def delete_game_body (gid : Nat) (st : DBState) : Except Err (DBState × Game) :=
  match st.games.find? fun g => g.id = gid with
  | none => .error ⟨404, "Game not found"⟩
  | some g =>
    let picks' := st.picks.filter fun p => ¬ p.game_id = gid
    .ok ({ games := st.games.filter fun x => ¬ x.id = gid
           picks := picks'
           tiebreaker_picks := st.tiebreaker_picks
           leaderboard := st.leaderboard.map fun r =>
             { r with total_points := (userPickSum picks' r.user_id : Rat) } }, g)

/-- `DELETE /games/{game_id}` (admin only, via `get_current_admin_user`). -/
def delete_game (caller : Option User) (gid : Nat) (st : DBState) :
    DBState × Except Err Game :=
  match get_current_admin_user caller with
  | .error e => (st, .error e)
  | .ok _ => get_db_cursor true st (delete_game_body gid)

/-! ## `PUT /tiebreaker_picks/points` -/

/-- The `update_tiebreaker_points` transaction body: 404 if the
tiebreaker pick is absent; otherwise set its points and resync that
one user's leaderboard row from both pick tables. -/
def update_tiebreaker_points_body (uid tid : Nat) (points : Rat) (st : DBState) :
    Except Err (DBState × TiebreakerPick) :=
  match st.tiebreaker_picks.find? fun p => p.user_id = uid ∧ p.tiebreaker_id = tid with
  | none => .error ⟨404, "Tiebreaker pick not found"⟩
  | some tp =>
    let tbs' := st.tiebreaker_picks.map fun p =>
      if p.user_id = uid ∧ p.tiebreaker_id = tid then { p with points_awarded := points } else p
    .ok ({ st with
            tiebreaker_picks := tbs'
            leaderboard := st.leaderboard.map fun r =>
              if r.user_id = uid then
                { r with total_points :=
                    (userPickSum st.picks r.user_id : Rat) + userTiebreakerSum tbs' r.user_id }
              else r },
      { tp with points_awarded := points })

/-- `PUT /tiebreaker_picks/points` (admin only); its blanket
`except Exception` also rewraps errors as 500. -/
def update_tiebreaker_points (caller : Option User) (uid tid : Nat) (points : Rat)
    (st : DBState) : DBState × Except Err TiebreakerPick :=
  match get_current_admin_user caller with
  | .error e => (st, .error e)
  | .ok _ =>
    let run := get_db_cursor true st (update_tiebreaker_points_body uid tid points)
    (run.1, match run.2 with
      | .ok v => .ok v
      | .error e => .error ⟨500, e.detail⟩)

/-! ## `POST /submit_pick` -/

/-- Request body of `/submit_pick` (`lock` is `Optional[bool] = None`). -/
structure PickSubmission where
  game_id : Nat
  picked_team : String
  lock : Option Bool
deriving Repr, DecidableEq

/-- The three success responses of `submit_pick`. -/
inductive SubmitResult where
  | noChangesStarted (p : Pick)
  | updated (p : Pick)
  | inserted (p : Pick)
deriving Repr, DecidableEq

/-- `SELECT p.*, g.game_date FROM picks p JOIN games g ON p.game_id =
g.id WHERE p.user_id = %s AND p.lock = TRUE`: the snapshot of the
user's locked picks, each paired with its game's date. -/
def userLockedPicksWithDates (st : DBState) (u : Nat) : List (Pick × Nat) :=
  st.picks.filterMap fun p =>
    if p.user_id = u ∧ p.lock = true then
      (st.games.find? fun g => g.id = p.game_id).map fun g => (p, g.game_date)
    else none

/-- `UPDATE picks SET lock = FALSE WHERE user_id = %s AND game_id = %s`. -/
def unlockPick (st : DBState) (u gid : Nat) : DBState :=
  { st with picks := st.picks.map fun p =>
      if p.user_id = u ∧ p.game_id = gid then { p with lock := false } else p }

/-- The 400 raised when a same-week locked game has already started. -/
def lockConflictErr : Err :=
  ⟨400, "Cannot lock this game because you already have a locked game that has started in the same week."⟩

/-- The `for lock in existing_locks` loop of `submit_pick` when locking:
skip the target game itself; for a lock whose week window overlaps the
target's, reject if that game has started, otherwise unlock it and
continue. -/
def lock_conflict_loop (u target_gid : Nat) (target_bounds : Nat × Nat) (now : Nat) :
    DBState → List (Pick × Nat) → Except Err DBState
  | st, [] => .ok st
  | st, (l, lock_game_date) :: rest =>
    if l.game_id ≠ target_gid then
      if weeksOverlap target_bounds (get_game_week_bounds lock_game_date) then
        if now ≥ lock_game_date then .error lockConflictErr
        else lock_conflict_loop u target_gid target_bounds now (unlockPick st u l.game_id) rest
      else lock_conflict_loop u target_gid target_bounds now st rest
    else lock_conflict_loop u target_gid target_bounds now st rest

/-- The `/submit_pick` transaction body for user `u` at time `now`:
game lookup, lock handling (conflict loop when locking, started check
when unlocking), started-game guards, then upsert. -/
def submit_pick_tx (u : Nat) (sub : PickSubmission) (now : Nat) (st : DBState) :
    Except Err (DBState × SubmitResult) :=
  match st.games.find? fun g => g.id = sub.game_id with
  | none => .error ⟨404, "Game not found"⟩
  | some game =>
    let existing_pick := st.picks.find? fun p => p.user_id = u ∧ p.game_id = sub.game_id
    let game_has_started : Bool := now ≥ game.game_date
    let afterLock : Except Err DBState :=
      match sub.lock with
      | some true =>
        lock_conflict_loop u sub.game_id (get_game_week_bounds game.game_date) now st
          (userLockedPicksWithDates st u)
      | some false =>
        match existing_pick with
        | some ep =>
          if ep.lock ∧ game_has_started then
            .error ⟨400, "Cannot unlock a game that has already started."⟩
          else .ok st
        | none => .ok st
      | none => .ok st
    match afterLock with
    | .error e => .error e
    | .ok st1 =>
      if game_has_started then
        match existing_pick with
        | none => .error ⟨400, "Cannot submit a new pick for a game that has already started."⟩
        | some ep =>
          let lock_status_changed : Bool :=
            match sub.lock with
            | none => false
            | some b => b ≠ ep.lock
          if lock_status_changed then
            .error ⟨400, "Your locked game has already started and cannot be changed."⟩
          else if sub.picked_team ≠ ep.picked_team then
            .error ⟨400, "Your pick for this game cannot be changed because the game has already started."⟩
          else .ok (st1, .noChangesStarted ep)
      else
        match existing_pick with
        | some ep =>
          let lock_value := sub.lock.getD ep.lock
          .ok ({ st1 with picks := st1.picks.map fun p =>
                  if p.user_id = u ∧ p.game_id = sub.game_id then
                    { p with picked_team := sub.picked_team, lock := lock_value }
                  else p },
            .updated { ep with picked_team := sub.picked_team, lock := lock_value })
        | none =>
          let lock_value := sub.lock.getD false
          let new_pick : Pick := ⟨u, sub.game_id, sub.picked_team, lock_value, 0⟩
          .ok ({ st1 with picks := st1.picks ++ [new_pick] }, .inserted new_pick)

/-- `POST /submit_pick`: 403 before the transaction when the caller
lacks `make_picks`, otherwise the transaction under
`get_db_cursor(commit=True)`. -/
def submit_pick (caller : User) (sub : PickSubmission) (now : Nat) (st : DBState) :
    DBState × Except Err SubmitResult :=
  if caller.make_picks = false then
    (st, .error ⟨403, "You do not have permission to make picks"⟩)
  else get_db_cursor true st (submit_pick_tx caller.id sub now)

/-! ### Lemmas about the lock-conflict loop -/

/-- The game ids the loop unlocks: snapshot entries other than the
target whose week window overlaps the target's. -/
def unlockTargets (tgt : Nat) (tb : Nat × Nat) (locks : List (Pick × Nat)) : List Nat :=
  (locks.filter fun ld =>
    decide (ld.1.game_id ≠ tgt) && weeksOverlap tb (get_game_week_bounds ld.2)).map
    fun ld => ld.1.game_id

/-- Per-pick effect of the whole loop on a user's picks: clear the lock
flag of the picks on the unlocked games. -/
def unlockOutsideFn (u : Nat) (tgts : List Nat) (p : Pick) : Pick :=
  if p.user_id = u ∧ p.game_id ∈ tgts then { p with lock := false } else p

/-- Per-pick effect of the upsert UPDATE when locking the target game. -/
def lockTargetFn (u tgt : Nat) (team : String) (lockv : Bool) (p : Pick) : Pick :=
  if p.user_id = u ∧ p.game_id = tgt then
    { p with picked_team := team, lock := lockv }
  else p

lemma unlockOutsideFn_user (u : Nat) (tgts : List Nat) (p : Pick) :
    (unlockOutsideFn u tgts p).user_id = p.user_id := by
  unfold unlockOutsideFn; split_ifs <;> rfl

lemma unlockOutsideFn_gid (u : Nat) (tgts : List Nat) (p : Pick) :
    (unlockOutsideFn u tgts p).game_id = p.game_id := by
  unfold unlockOutsideFn; split_ifs <;> rfl

lemma lockTargetFn_user (u tgt : Nat) (team : String) (lockv : Bool) (p : Pick) :
    (lockTargetFn u tgt team lockv p).user_id = p.user_id := by
  unfold lockTargetFn; split_ifs <;> rfl

lemma lockTargetFn_gid (u tgt : Nat) (team : String) (lockv : Bool) (p : Pick) :
    (lockTargetFn u tgt team lockv p).game_id = p.game_id := by
  unfold lockTargetFn; split_ifs <;> rfl

lemma lock_conflict_loop_error (u tgt : Nat) (tb : Nat × Nat) (now : Nat)
    (st : DBState) (locks : List (Pick × Nat))
    (hex : ∃ ld ∈ locks, ld.1.game_id ≠ tgt ∧
      weeksOverlap tb (get_game_week_bounds ld.2) = true ∧ ld.2 ≤ now) :
    lock_conflict_loop u tgt tb now st locks = .error lockConflictErr := by
  induction locks generalizing st with
  | nil => simp at hex
  | cons hd rest ih =>
    obtain ⟨ld, hmem, h1, h2, h3⟩ := hex
    obtain ⟨l, d⟩ := hd
    show lock_conflict_loop u tgt tb now st ((l, d) :: rest) = _
    rw [lock_conflict_loop]
    rcases List.mem_cons.mp hmem with heq | hrest
    · subst heq
      rw [if_pos h1, if_pos h2, if_pos h3]
    · split_ifs with g1 g2 g3
      · rfl
      · exact ih _ ⟨ld, hrest, h1, h2, h3⟩
      · exact ih _ ⟨ld, hrest, h1, h2, h3⟩
      · exact ih _ ⟨ld, hrest, h1, h2, h3⟩

lemma lock_conflict_loop_ok (u tgt : Nat) (tb : Nat × Nat) (now : Nat)
    (st : DBState) (locks : List (Pick × Nat))
    (hok : ∀ ld ∈ locks, ld.1.game_id ≠ tgt →
      weeksOverlap tb (get_game_week_bounds ld.2) = true → now < ld.2) :
    lock_conflict_loop u tgt tb now st locks =
      .ok { st with picks :=
        st.picks.map (unlockOutsideFn u (unlockTargets tgt tb locks)) } := by
  induction locks generalizing st with
  | nil =>
    have h : st.picks.map (unlockOutsideFn u (unlockTargets tgt tb [])) = st.picks := by
      have hid : ∀ p ∈ st.picks, unlockOutsideFn u (unlockTargets tgt tb []) p = p := by
        intro p _
        simp [unlockOutsideFn, unlockTargets]
      rw [List.map_congr_left hid]
      simp
    show Except.ok st = _
    rw [h]
  | cons hd rest ih =>
    obtain ⟨l, d⟩ := hd
    show lock_conflict_loop u tgt tb now st ((l, d) :: rest) = _
    rw [lock_conflict_loop]
    split_ifs with g1 g2 g3
    · exact absurd g3 (Nat.not_le.mpr (hok (l, d) (List.mem_cons_self _ _) g1 g2))
    · rw [ih _ (fun ld h => hok ld (List.mem_cons_of_mem _ h))]
      congr 1
      ext1 <;> try rfl
      show ((unlockPick st u l.game_id).picks.map _) = _
      have hcons : unlockTargets tgt tb ((l, d) :: rest)
          = l.game_id :: unlockTargets tgt tb rest := by
        simp [unlockTargets, List.filter_cons, g1, g2]
      rw [hcons]
      show (st.picks.map fun p =>
          if p.user_id = u ∧ p.game_id = l.game_id then { p with lock := false } else p).map _
        = _
      rw [List.map_map]
      refine List.map_congr_left fun p _ => ?_
      by_cases hu : p.user_id = u
      · by_cases hg : p.game_id = l.game_id
        · simp [Function.comp, unlockOutsideFn, hu, hg]
        · by_cases hr : p.game_id ∈ unlockTargets tgt tb rest <;>
            simp [Function.comp, unlockOutsideFn, hu, hg, hr]
      · simp [Function.comp, unlockOutsideFn, hu]
    · rw [ih _ (fun ld h => hok ld (List.mem_cons_of_mem _ h))]
      have hcons : unlockTargets tgt tb ((l, d) :: rest) = unlockTargets tgt tb rest := by
        simp [unlockTargets, List.filter_cons, g2]
      rw [hcons]
    · rw [ih _ (fun ld h => hok ld (List.mem_cons_of_mem _ h))]
      have hcons : unlockTargets tgt tb ((l, d) :: rest) = unlockTargets tgt tb rest := by
        have : ¬ l.game_id ≠ tgt := g1
        simp [unlockTargets, List.filter_cons, this]
      rw [hcons]

/-- Specialization: when no other snapshot entry's week overlaps the
target's, the loop leaves the state untouched. -/
lemma lock_conflict_loop_id (u tgt : Nat) (tb : Nat × Nat) (now : Nat)
    (st : DBState) (locks : List (Pick × Nat))
    (hno : ∀ ld ∈ locks, ld.1.game_id ≠ tgt →
      weeksOverlap tb (get_game_week_bounds ld.2) = false) :
    lock_conflict_loop u tgt tb now st locks = .ok st := by
  induction locks generalizing st with
  | nil => rfl
  | cons hd rest ih =>
    obtain ⟨l, d⟩ := hd
    show lock_conflict_loop u tgt tb now st ((l, d) :: rest) = _
    rw [lock_conflict_loop]
    split_ifs with g1 g2 g3
    · rw [hno (l, d) (List.mem_cons_self _ _) g1] at g2
      exact absurd g2 (by simp)
    · rw [hno (l, d) (List.mem_cons_self _ _) g1] at g2
      exact absurd g2 (by simp)
    · exact ih _ (fun ld h => hno ld (List.mem_cons_of_mem _ h))
    · exact ih _ (fun ld h => hno ld (List.mem_cons_of_mem _ h))

/-! ### Counting and membership helpers for the lock-exclusivity claim -/

/-- The user's locked picks whose game's week window overlaps `tb`
(games looked up in `games`); used to state "exactly one locked pick in
that week". -/
def lockedPicksInWeek (games : List Game) (picks : List Pick) (u : Nat) (tb : Nat × Nat) :
    List Pick :=
  picks.filter fun p =>
    decide (p.user_id = u) && p.lock &&
      ((games.find? fun g => g.id = p.game_id).elim false
        fun g => weeksOverlap tb (get_game_week_bounds g.game_date))

lemma weeksOverlap_self (t : Nat) :
    weeksOverlap (get_game_week_bounds t) (get_game_week_bounds t) = true := by
  dsimp [weeksOverlap, get_game_week_bounds]
  simp

lemma mem_unlockTargets_ne (tgt : Nat) (tb : Nat × Nat) (locks : List (Pick × Nat))
    (a : Nat) (ha : a ∈ unlockTargets tgt tb locks) : a ≠ tgt := by
  unfold unlockTargets at ha
  obtain ⟨ld, hld, heq⟩ := List.mem_map.mp ha
  obtain ⟨-, hpred⟩ := List.mem_filter.mp hld
  rw [Bool.and_eq_true, decide_eq_true_eq] at hpred
  exact heq ▸ hpred.1

lemma mem_unlockTargets_of (tgt : Nat) (tb : Nat × Nat) (locks : List (Pick × Nat))
    (p : Pick) (d : Nat) (hmem : (p, d) ∈ locks) (hne : p.game_id ≠ tgt)
    (hov : weeksOverlap tb (get_game_week_bounds d) = true) :
    p.game_id ∈ unlockTargets tgt tb locks := by
  unfold unlockTargets
  exact List.mem_map.mpr ⟨(p, d), List.mem_filter.mpr ⟨hmem, by simp [hne, hov]⟩, rfl⟩

lemma mem_userLockedPicksWithDates (st : DBState) (u : Nat) (p : Pick) (g : Game)
    (hp : p ∈ st.picks) (hu : p.user_id = u) (hl : p.lock = true)
    (hg : (st.games.find? fun x => x.id = p.game_id) = some g) :
    (p, g.game_date) ∈ userLockedPicksWithDates st u := by
  unfold userLockedPicksWithDates
  refine List.mem_filterMap.mpr ⟨p, hp, ?_⟩
  rw [if_pos ⟨hu, hl⟩, hg]
  rfl

lemma countP_map_of_preserved (l : List Pick) (f : Pick → Pick) (p : Pick → Bool)
    (hf : ∀ x, p (f x) = p x) : (l.map f).countP p = l.countP p := by
  induction l with
  | nil => rfl
  | cons x xs ih => simp [List.countP_cons, hf, ih]

lemma countP_user_game_le_one (l : List Pick) (u g : Nat)
    (h : l.Pairwise fun p q => ¬(p.user_id = q.user_id ∧ p.game_id = q.game_id)) :
    l.countP (fun p => decide (p.user_id = u) && decide (p.game_id = g)) ≤ 1 := by
  induction l with
  | nil => simp
  | cons x xs ih =>
    rw [List.pairwise_cons] at h
    obtain ⟨hx, hxs⟩ := h
    rw [List.countP_cons]
    by_cases hm : x.user_id = u ∧ x.game_id = g
    · have hz : xs.countP (fun p => decide (p.user_id = u) && decide (p.game_id = g)) = 0 := by
        rw [List.countP_eq_zero]
        intro q hq hq2
        rw [Bool.and_eq_true, decide_eq_true_eq, decide_eq_true_eq] at hq2
        exact hx q hq ⟨hm.1.trans hq2.1.symm, hm.2.trans hq2.2.symm⟩
      simp [hz, hm]
    · have hxf : (decide (x.user_id = u) && decide (x.game_id = g)) = false := by
        simpa using hm
      simpa [hxf] using ih hxs

/-- From a count of exactly one `(u, tgt)` row, plus "every locked
same-week pick is a `(u, tgt)` row" (`hA`) and "every `(u, tgt)` row is
locked" (`hB`), the same-week locked picks form a singleton on the
target game. -/
lemma lockedPicksInWeek_singleton (games : List Game) (picks : List Pick)
    (u tgt : Nat) (game : Game) (tb : Nat × Nat)
    (hgame : (games.find? fun g => g.id = tgt) = some game)
    (htb : weeksOverlap tb (get_game_week_bounds game.game_date) = true)
    (hcount : picks.countP (fun p => decide (p.user_id = u) && decide (p.game_id = tgt)) = 1)
    (hA : ∀ p ∈ picks, (decide (p.user_id = u) && p.lock &&
        ((games.find? fun g => g.id = p.game_id).elim false
          fun g => weeksOverlap tb (get_game_week_bounds g.game_date))) = true →
        p.game_id = tgt)
    (hB : ∀ p ∈ picks, p.user_id = u → p.game_id = tgt → p.lock = true) :
    ∃ q, lockedPicksInWeek games picks u tb = [q] ∧
      q.user_id = u ∧ q.game_id = tgt ∧ q.lock = true := by
  have hcongr : ∀ p ∈ picks,
      (decide (p.user_id = u) && p.lock &&
        ((games.find? fun g => g.id = p.game_id).elim false
          fun g => weeksOverlap tb (get_game_week_bounds g.game_date)))
      = (decide (p.user_id = u) && decide (p.game_id = tgt)) := by
    intro p hp
    by_cases h0 : p.user_id = u ∧ p.game_id = tgt
    · have hl := hB p hp h0.1 h0.2
      simp [h0.1, h0.2, hl, hgame, htb]
    · cases hbig : (decide (p.user_id = u) && p.lock &&
          ((games.find? fun g => g.id = p.game_id).elim false
            fun g => weeksOverlap tb (get_game_week_bounds g.game_date)))
      · have h0f : (decide (p.user_id = u) && decide (p.game_id = tgt)) = false := by
          simpa using h0
        rw [h0f]
      · have hgid := hA p hp hbig
        rw [Bool.and_eq_true, Bool.and_eq_true, decide_eq_true_eq] at hbig
        exact absurd ⟨hbig.1.1, hgid⟩ h0
  have hfeq : lockedPicksInWeek games picks u tb
      = picks.filter fun p => decide (p.user_id = u) && decide (p.game_id = tgt) :=
    List.filter_congr hcongr
  have hlen : (picks.filter fun p =>
      decide (p.user_id = u) && decide (p.game_id = tgt)).length = 1 := by
    rw [← List.countP_eq_length_filter _ picks]
    exact hcount
  obtain ⟨q, hq⟩ := List.length_eq_one.mp hlen
  have hqmem : q ∈ picks.filter fun p =>
      decide (p.user_id = u) && decide (p.game_id = tgt) := by
    rw [hq]
    exact List.mem_cons_self _ _
  obtain ⟨hqp, hq0⟩ := List.mem_filter.mp hqmem
  rw [Bool.and_eq_true, decide_eq_true_eq, decide_eq_true_eq] at hq0
  exact ⟨q, hfeq.trans hq, hq0.1, hq0.2, hB q hqp hq0.1 hq0.2⟩

/-! ## Claim C3: one-lock-per-week swap -/

/-- C3: when a user submits `lock = true` for a not-yet-started game G
(over a well-formed pick table — one row per (user, game)):
if some other locked pick of the user lies in the same week window as G
and its game has already started, the submission fails with the 400
lock-conflict error and the state is unchanged (rolled back);
otherwise every such same-week locked pick is unlocked in the same
transaction and G's pick is locked, so the user ends with exactly one
locked pick whose game falls in G's week window — G's own. -/
theorem submit_pick_lock_week_exclusivity (caller : User) (sub : PickSubmission) (now : Nat)
    (st : DBState) (game : Game)
    (hmp : caller.make_picks = true)
    (hgame : (st.games.find? fun g => g.id = sub.game_id) = some game)
    (hlock : sub.lock = some true)
    (hns : now < game.game_date)
    (huniq : st.picks.Pairwise fun p q => ¬(p.user_id = q.user_id ∧ p.game_id = q.game_id)) :
    ((∃ ld ∈ userLockedPicksWithDates st caller.id, ld.1.game_id ≠ sub.game_id ∧
        weeksOverlap (get_game_week_bounds game.game_date) (get_game_week_bounds ld.2) = true ∧
        ld.2 ≤ now) →
      submit_pick caller sub now st = (st, .error lockConflictErr)) ∧
    ((∀ ld ∈ userLockedPicksWithDates st caller.id, ld.1.game_id ≠ sub.game_id →
        weeksOverlap (get_game_week_bounds game.game_date) (get_game_week_bounds ld.2) = true →
        now < ld.2) →
      ∃ st' r q, submit_pick caller sub now st = (st', .ok r) ∧
        lockedPicksInWeek st'.games st'.picks caller.id
          (get_game_week_bounds game.game_date) = [q] ∧
        q.user_id = caller.id ∧ q.game_id = sub.game_id ∧ q.lock = true) := by
  have hb : (decide (now ≥ game.game_date)) = false := decide_eq_false (by omega)
  constructor
  · intro hex
    have hloop := lock_conflict_loop_error caller.id sub.game_id
      (get_game_week_bounds game.game_date) now st (userLockedPicksWithDates st caller.id) hex
    simp [submit_pick, hmp, get_db_cursor, submit_pick_tx, hgame, hlock, hloop]
  · intro hok
    have hloop := lock_conflict_loop_ok caller.id sub.game_id
      (get_game_week_bounds game.game_date) now st (userLockedPicksWithDates st caller.id) hok
    have htgt_notmem : sub.game_id ∉ unlockTargets sub.game_id
        (get_game_week_bounds game.game_date) (userLockedPicksWithDates st caller.id) :=
      fun h => (mem_unlockTargets_ne _ _ _ _ h) rfl
    cases hep : st.picks.find? fun p =>
        decide (p.user_id = caller.id ∧ p.game_id = sub.game_id) with
    | some ep =>
      have hepMem := List.mem_of_find?_eq_some hep
      have hepP : ep.user_id = caller.id ∧ ep.game_id = sub.game_id := by
        have h := List.find?_some hep
        rwa [decide_eq_true_eq] at h
      have hep' := hep
      simp only [Bool.decide_and] at hep'
      have hres : submit_pick caller sub now st =
          ({ st with picks := (st.picks.map (unlockOutsideFn caller.id (unlockTargets sub.game_id (get_game_week_bounds game.game_date) (userLockedPicksWithDates st caller.id)))).map (lockTargetFn caller.id sub.game_id sub.picked_team true) },
            .ok (.updated { ep with picked_team := sub.picked_team, lock := true })) := by
        simp [submit_pick, hmp, get_db_cursor, submit_pick_tx, hgame, hlock, hloop, hep',
          hb, unlockOutsideFn, lockTargetFn]
      have hcount : ((st.picks.map (unlockOutsideFn caller.id
            (unlockTargets sub.game_id (get_game_week_bounds game.game_date)
              (userLockedPicksWithDates st caller.id)))).map
          (lockTargetFn caller.id sub.game_id sub.picked_team true)).countP
          (fun p => decide (p.user_id = caller.id) && decide (p.game_id = sub.game_id)) = 1 := by
        rw [countP_map_of_preserved _ _ _
            (fun x => by rw [lockTargetFn_user, lockTargetFn_gid]),
          countP_map_of_preserved _ _ _
            (fun x => by rw [unlockOutsideFn_user, unlockOutsideFn_gid])]
        have hle := countP_user_game_le_one st.picks caller.id sub.game_id huniq
        have hge : 0 < st.picks.countP
            (fun p => decide (p.user_id = caller.id) && decide (p.game_id = sub.game_id)) :=
          List.countP_pos_iff.mpr ⟨ep, hepMem, by simp [hepP.1, hepP.2]⟩
        omega
      have hA : ∀ p ∈ (st.picks.map (unlockOutsideFn caller.id
            (unlockTargets sub.game_id (get_game_week_bounds game.game_date)
              (userLockedPicksWithDates st caller.id)))).map
          (lockTargetFn caller.id sub.game_id sub.picked_team true),
          (decide (p.user_id = caller.id) && p.lock &&
            ((st.games.find? fun g => g.id = p.game_id).elim false
              fun g => weeksOverlap (get_game_week_bounds game.game_date)
                (get_game_week_bounds g.game_date))) = true →
          p.game_id = sub.game_id := by
        intro p hp hbig
        by_contra hne
        obtain ⟨p1, hp1, rfl⟩ := List.mem_map.mp hp
        obtain ⟨p0, hp0, rfl⟩ := List.mem_map.mp hp1
        have hgid : (lockTargetFn caller.id sub.game_id sub.picked_team true
            (unlockOutsideFn caller.id (unlockTargets sub.game_id (get_game_week_bounds game.game_date) (userLockedPicksWithDates st caller.id)) p0)).game_id = p0.game_id := by
          rw [lockTargetFn_gid, unlockOutsideFn_gid]
        have hne0 : p0.game_id ≠ sub.game_id := fun h => hne (hgid.trans h)
        have hL : lockTargetFn caller.id sub.game_id sub.picked_team true
            (unlockOutsideFn caller.id (unlockTargets sub.game_id (get_game_week_bounds game.game_date) (userLockedPicksWithDates st caller.id)) p0) = unlockOutsideFn caller.id (unlockTargets sub.game_id (get_game_week_bounds game.game_date) (userLockedPicksWithDates st caller.id)) p0 := by
          unfold lockTargetFn
          rw [if_neg]
          rintro ⟨-, h2⟩
          exact hne0 ((unlockOutsideFn_gid _ _ _).symm.trans h2)
        rw [hL] at hbig
        rw [Bool.and_eq_true, Bool.and_eq_true, decide_eq_true_eq] at hbig
        obtain ⟨⟨hu, hl⟩, hov⟩ := hbig
        rw [unlockOutsideFn_user] at hu
        by_cases hmem : p0.game_id ∈ unlockTargets sub.game_id
            (get_game_week_bounds game.game_date) (userLockedPicksWithDates st caller.id)
        · rw [show unlockOutsideFn caller.id (unlockTargets sub.game_id
              (get_game_week_bounds game.game_date) (userLockedPicksWithDates st caller.id)) p0
              = { p0 with lock := false } from by unfold unlockOutsideFn; rw [if_pos ⟨hu, hmem⟩]]
            at hl
          exact absurd hl (by simp)
        · have hid : unlockOutsideFn caller.id (unlockTargets sub.game_id
              (get_game_week_bounds game.game_date) (userLockedPicksWithDates st caller.id)) p0
              = p0 := by
            unfold unlockOutsideFn
            rw [if_neg]
            rintro ⟨-, h2⟩
            exact hmem h2
          rw [hid] at hl hov
          cases hfind : st.games.find? fun g => g.id = p0.game_id with
          | none => rw [hfind] at hov; simp at hov
          | some g =>
            rw [hfind] at hov
            simp only [Option.elim] at hov
            have hsnap := mem_userLockedPicksWithDates st caller.id p0 g hp0 hu hl hfind
            exact hmem (mem_unlockTargets_of sub.game_id
              (get_game_week_bounds game.game_date) _ p0 g.game_date hsnap hne0 hov)
      have hB : ∀ p ∈ (st.picks.map (unlockOutsideFn caller.id
            (unlockTargets sub.game_id (get_game_week_bounds game.game_date)
              (userLockedPicksWithDates st caller.id)))).map
          (lockTargetFn caller.id sub.game_id sub.picked_team true),
          p.user_id = caller.id → p.game_id = sub.game_id → p.lock = true := by
        intro p hp hu hg
        obtain ⟨p1, hp1, rfl⟩ := List.mem_map.mp hp
        obtain ⟨p0, hp0, rfl⟩ := List.mem_map.mp hp1
        rw [lockTargetFn_user, unlockOutsideFn_user] at hu
        rw [lockTargetFn_gid, unlockOutsideFn_gid] at hg
        have hid : unlockOutsideFn caller.id (unlockTargets sub.game_id
            (get_game_week_bounds game.game_date) (userLockedPicksWithDates st caller.id)) p0
            = p0 := by
          unfold unlockOutsideFn
          rw [if_neg]
          rintro ⟨-, h2⟩
          exact htgt_notmem (hg ▸ h2)
        rw [hid]
        unfold lockTargetFn
        rw [if_pos ⟨hu, hg⟩]
      obtain ⟨q, hsing, hq1, hq2, hq3⟩ := lockedPicksInWeek_singleton st.games _
        caller.id sub.game_id game (get_game_week_bounds game.game_date) hgame
        (weeksOverlap_self game.game_date) hcount hA hB
      exact ⟨_, _, q, hres, hsing, hq1, hq2, hq3⟩
    | none =>
      have hnone' := hep
      simp only [Bool.decide_and] at hnone'
      have hres : submit_pick caller sub now st =
          ({ st with picks := (st.picks.map (unlockOutsideFn caller.id (unlockTargets sub.game_id (get_game_week_bounds game.game_date) (userLockedPicksWithDates st caller.id)))) ++ [⟨caller.id, sub.game_id, sub.picked_team, true, 0⟩] },
            .ok (.inserted ⟨caller.id, sub.game_id, sub.picked_team, true, 0⟩)) := by
        simp [submit_pick, hmp, get_db_cursor, submit_pick_tx, hgame, hlock, hloop, hnone',
          hb, unlockOutsideFn]
      have hzero : st.picks.countP
          (fun p => decide (p.user_id = caller.id) && decide (p.game_id = sub.game_id)) = 0 := by
        rw [List.countP_eq_zero]
        intro x hx hPx
        rw [Bool.and_eq_true, decide_eq_true_eq, decide_eq_true_eq] at hPx
        exact (List.find?_eq_none.mp hep x hx) (by simp [hPx.1, hPx.2])
      have hcount : ((st.picks.map (unlockOutsideFn caller.id (unlockTargets sub.game_id (get_game_week_bounds game.game_date) (userLockedPicksWithDates st caller.id)))) ++ ([⟨caller.id, sub.game_id, sub.picked_team, true, 0⟩] : List Pick)).countP
          (fun p => decide (p.user_id = caller.id) && decide (p.game_id = sub.game_id)) = 1 := by
        rw [List.countP_append, countP_map_of_preserved _ _ _
          (fun x => by rw [unlockOutsideFn_user, unlockOutsideFn_gid]), hzero]
        simp
      have hA : ∀ p ∈ (st.picks.map (unlockOutsideFn caller.id (unlockTargets sub.game_id (get_game_week_bounds game.game_date) (userLockedPicksWithDates st caller.id)))) ++ [⟨caller.id, sub.game_id, sub.picked_team, true, 0⟩],
          (decide (p.user_id = caller.id) && p.lock &&
            ((st.games.find? fun g => g.id = p.game_id).elim false
              fun g => weeksOverlap (get_game_week_bounds game.game_date)
                (get_game_week_bounds g.game_date))) = true →
          p.game_id = sub.game_id := by
        intro p hp hbig
        rcases List.mem_append.mp hp with hp | hp
        · by_contra hne
          obtain ⟨p0, hp0, rfl⟩ := List.mem_map.mp hp
          have hne0 : p0.game_id ≠ sub.game_id :=
            fun h => hne ((unlockOutsideFn_gid _ _ _).trans h)
          rw [Bool.and_eq_true, Bool.and_eq_true, decide_eq_true_eq] at hbig
          obtain ⟨⟨hu, hl⟩, hov⟩ := hbig
          rw [unlockOutsideFn_user] at hu
          by_cases hmem : p0.game_id ∈ unlockTargets sub.game_id
              (get_game_week_bounds game.game_date) (userLockedPicksWithDates st caller.id)
          · rw [show unlockOutsideFn caller.id (unlockTargets sub.game_id
                (get_game_week_bounds game.game_date) (userLockedPicksWithDates st caller.id)) p0
                = { p0 with lock := false } from by unfold unlockOutsideFn; rw [if_pos ⟨hu, hmem⟩]]
              at hl
            exact absurd hl (by simp)
          · have hid : unlockOutsideFn caller.id (unlockTargets sub.game_id
                (get_game_week_bounds game.game_date) (userLockedPicksWithDates st caller.id)) p0
                = p0 := by
              unfold unlockOutsideFn
              rw [if_neg]
              rintro ⟨-, h2⟩
              exact hmem h2
            rw [hid] at hl hov
            cases hfind : st.games.find? fun g => g.id = p0.game_id with
            | none => rw [hfind] at hov; simp at hov
            | some g =>
              rw [hfind] at hov
              simp only [Option.elim] at hov
              have hsnap := mem_userLockedPicksWithDates st caller.id p0 g hp0 hu hl hfind
              exact hmem (mem_unlockTargets_of sub.game_id
                (get_game_week_bounds game.game_date) _ p0 g.game_date hsnap hne0 hov)
        · rw [List.mem_singleton.mp hp]
      have hB : ∀ p ∈ (st.picks.map (unlockOutsideFn caller.id (unlockTargets sub.game_id (get_game_week_bounds game.game_date) (userLockedPicksWithDates st caller.id)))) ++ [⟨caller.id, sub.game_id, sub.picked_team, true, 0⟩],
          p.user_id = caller.id → p.game_id = sub.game_id → p.lock = true := by
        intro p hp hu hg
        rcases List.mem_append.mp hp with hp | hp
        · obtain ⟨p0, hp0, rfl⟩ := List.mem_map.mp hp
          rw [unlockOutsideFn_user] at hu
          rw [unlockOutsideFn_gid] at hg
          exact absurd (by simp [hu, hg] :
            decide (p0.user_id = caller.id ∧ p0.game_id = sub.game_id) = true)
            (List.find?_eq_none.mp hep p0 hp0)
        · rw [List.mem_singleton.mp hp]
      obtain ⟨q, hsing, hq1, hq2, hq3⟩ := lockedPicksInWeek_singleton st.games _
        caller.id sub.game_id game (get_game_week_bounds game.game_date) hgame
        (weeksOverlap_self game.game_date) hcount hA hB
      exact ⟨_, _, q, hres, hsing, hq1, hq2, hq3⟩

/-- Witness for C3: user 1 holds a lock on game 2 (same Tuesday-to-
Tuesday week as game 1, not started) and locks game 1 at `now = 100`;
the instantiated theorem gives both the started-conflict rejection
implication and the successful swap leaving game 1 as the only locked
pick of the week. -/
theorem submit_pick_lock_week_exclusivity_witness :
    ((∃ ld ∈ userLockedPicksWithDates
        ⟨[⟨1, "A", "B", 0, 20000, none⟩, ⟨2, "C", "D", 0, 21000, none⟩],
         [⟨1, 2, "C", true, 0⟩], [], []⟩ 1, ld.1.game_id ≠ 1 ∧
        weeksOverlap (get_game_week_bounds 20000) (get_game_week_bounds ld.2) = true ∧
        ld.2 ≤ 100) →
      submit_pick ⟨1, false, true⟩ ⟨1, "A", some true⟩ 100
        ⟨[⟨1, "A", "B", 0, 20000, none⟩, ⟨2, "C", "D", 0, 21000, none⟩],
         [⟨1, 2, "C", true, 0⟩], [], []⟩ =
      (⟨[⟨1, "A", "B", 0, 20000, none⟩, ⟨2, "C", "D", 0, 21000, none⟩],
         [⟨1, 2, "C", true, 0⟩], [], []⟩, .error lockConflictErr)) ∧
    ((∀ ld ∈ userLockedPicksWithDates
        ⟨[⟨1, "A", "B", 0, 20000, none⟩, ⟨2, "C", "D", 0, 21000, none⟩],
         [⟨1, 2, "C", true, 0⟩], [], []⟩ 1, ld.1.game_id ≠ 1 →
        weeksOverlap (get_game_week_bounds 20000) (get_game_week_bounds ld.2) = true →
        100 < ld.2) →
      ∃ st' r q, submit_pick ⟨1, false, true⟩ ⟨1, "A", some true⟩ 100
          ⟨[⟨1, "A", "B", 0, 20000, none⟩, ⟨2, "C", "D", 0, 21000, none⟩],
           [⟨1, 2, "C", true, 0⟩], [], []⟩ = (st', .ok r) ∧
        lockedPicksInWeek st'.games st'.picks 1 (get_game_week_bounds 20000) = [q] ∧
        q.user_id = 1 ∧ q.game_id = 1 ∧ q.lock = true) :=
  submit_pick_lock_week_exclusivity ⟨1, false, true⟩ ⟨1, "A", some true⟩ 100
    ⟨[⟨1, "A", "B", 0, 20000, none⟩, ⟨2, "C", "D", 0, 21000, none⟩],
     [⟨1, 2, "C", true, 0⟩], [], []⟩
    ⟨1, "A", "B", 0, 20000, none⟩ rfl rfl rfl (by decide) (by simp)

/-! ## Claim C10: submissions with `lock` omitted -/

/-- C10: for a not-yet-started game, a submission with `lock = None`
updates `picked_team` of an existing pick while writing back the
pick's stored `lock` flag unchanged, and inserts a new pick with
`lock = false` when none exists. -/
theorem submit_pick_lock_none_frame (caller : User) (sub : PickSubmission) (now : Nat)
    (st : DBState) (game : Game)
    (hmp : caller.make_picks = true)
    (hgame : (st.games.find? fun g => g.id = sub.game_id) = some game)
    (hns : now < game.game_date)
    (hlock : sub.lock = none) :
    (∀ ep, (st.picks.find? fun p => p.user_id = caller.id ∧ p.game_id = sub.game_id) = some ep →
      submit_pick caller sub now st =
        ({ st with picks := st.picks.map fun p =>
            if p.user_id = caller.id ∧ p.game_id = sub.game_id then
              { p with picked_team := sub.picked_team, lock := ep.lock }
            else p },
          .ok (.updated { ep with picked_team := sub.picked_team, lock := ep.lock }))) ∧
    ((st.picks.find? fun p => p.user_id = caller.id ∧ p.game_id = sub.game_id) = none →
      submit_pick caller sub now st =
        ({ st with picks := st.picks ++ [⟨caller.id, sub.game_id, sub.picked_team, false, 0⟩] },
          .ok (.inserted ⟨caller.id, sub.game_id, sub.picked_team, false, 0⟩))) := by
  have hb : (decide (now ≥ game.game_date)) = false := decide_eq_false (by omega)
  constructor
  · intro ep hep
    simp only [Bool.decide_and] at hep
    simp [submit_pick, hmp, get_db_cursor, submit_pick_tx, hgame, hlock, hep, hb]
  · intro hnone
    simp only [Bool.decide_and] at hnone
    simp [submit_pick, hmp, get_db_cursor, submit_pick_tx, hgame, hlock, hnone, hb]

/-- Witness for C10: updating the team of an existing locked pick with
`lock` omitted keeps `lock = true`; and the insert branch applied to a
user without a pick yields `lock = false`. -/
theorem submit_pick_lock_none_frame_witness :
    ((true : Bool) = true) ∧
    (submit_pick ⟨1, false, true⟩ ⟨1, "B", none⟩ 100
        ⟨[⟨1, "A", "B", 0, 20000, none⟩], [⟨1, 1, "A", true, 0⟩], [], []⟩ =
      (⟨[⟨1, "A", "B", 0, 20000, none⟩], [⟨1, 1, "B", true, 0⟩], [], []⟩,
        .ok (.updated ⟨1, 1, "B", true, 0⟩))) ∧
    (submit_pick ⟨2, false, true⟩ ⟨1, "B", none⟩ 100
        ⟨[⟨1, "A", "B", 0, 20000, none⟩], [], [], []⟩ =
      (⟨[⟨1, "A", "B", 0, 20000, none⟩], [⟨2, 1, "B", false, 0⟩], [], []⟩,
        .ok (.inserted ⟨2, 1, "B", false, 0⟩))) := by
  refine ⟨rfl, ?_, ?_⟩
  · have h := (submit_pick_lock_none_frame ⟨1, false, true⟩ ⟨1, "B", none⟩ 100
      ⟨[⟨1, "A", "B", 0, 20000, none⟩], [⟨1, 1, "A", true, 0⟩], [], []⟩
      ⟨1, "A", "B", 0, 20000, none⟩ rfl rfl (by decide) rfl).1
      ⟨1, 1, "A", true, 0⟩ rfl
    exact h
  · have h := (submit_pick_lock_none_frame ⟨2, false, true⟩ ⟨1, "B", none⟩ 100
      ⟨[⟨1, "A", "B", 0, 20000, none⟩], [], [], []⟩
      ⟨1, "A", "B", 0, 20000, none⟩ rfl rfl (by decide) rfl).2 rfl
    exact h

/-! ## Claim C6: submissions at or after `game_date` -/

/-- C6: when `now ≥ game_date` (including exact equality), a new pick
is rejected and the transaction leaves the state untouched; a change of
`picked_team` or of `lock` on an existing pick is rejected likewise;
and a resubmission identical to the stored pick (same team, lock equal
or omitted) succeeds and leaves the stored data unchanged.  The
lock-conflict scan runs only when the submission carries `lock = true`,
in which case the identical resubmission means the user's weekly lock
is on this very game and the one-lock-per-week invariant — other locked
picks lie in other weeks — keeps the scan from touching anything; with
`lock` omitted or `false` no assumption on the user's other locked
picks is needed at all. -/
theorem submit_pick_started_guard (caller : User) (sub : PickSubmission) (now : Nat)
    (st : DBState) (game : Game)
    (hmp : caller.make_picks = true)
    (hgame : (st.games.find? fun g => g.id = sub.game_id) = some game)
    (hst : game.game_date ≤ now) :
    (((st.picks.find? fun p => p.user_id = caller.id ∧ p.game_id = sub.game_id) = none) →
      ∃ e, submit_pick caller sub now st = (st, .error e)) ∧
    (∀ ep, (st.picks.find? fun p => p.user_id = caller.id ∧ p.game_id = sub.game_id) = some ep →
      (sub.picked_team ≠ ep.picked_team ∨ (∃ b, sub.lock = some b ∧ b ≠ ep.lock)) →
      ∃ e, submit_pick caller sub now st = (st, .error e)) ∧
    (∀ ep, (st.picks.find? fun p => p.user_id = caller.id ∧ p.game_id = sub.game_id) = some ep →
      sub.picked_team = ep.picked_team →
      (sub.lock = none ∨ sub.lock = some ep.lock) →
      (sub.lock = some true →
        ∀ ld ∈ userLockedPicksWithDates st caller.id, ld.1.game_id ≠ sub.game_id →
          weeksOverlap (get_game_week_bounds game.game_date) (get_game_week_bounds ld.2)
            = false) →
      submit_pick caller sub now st = (st, .ok (.noChangesStarted ep))) := by
  have hb : (decide (now ≥ game.game_date)) = true := decide_eq_true (by omega)
  refine ⟨?_, ?_, ?_⟩
  · intro hnone
    simp only [Bool.decide_and] at hnone
    rcases hsl : sub.lock with - | b
    · exact ⟨⟨400, "Cannot submit a new pick for a game that has already started."⟩,
        by simp [submit_pick, hmp, get_db_cursor, submit_pick_tx, hgame, hsl, hnone, hb]⟩
    · cases b
      · exact ⟨⟨400, "Cannot submit a new pick for a game that has already started."⟩,
          by simp [submit_pick, hmp, get_db_cursor, submit_pick_tx, hgame, hsl, hnone, hb]⟩
      · cases hloop : lock_conflict_loop caller.id sub.game_id
            (get_game_week_bounds game.game_date) now st
            (userLockedPicksWithDates st caller.id) with
        | error e =>
          exact ⟨e, by simp [submit_pick, hmp, get_db_cursor, submit_pick_tx, hgame, hsl,
            hloop, hb]⟩
        | ok st1 =>
          exact ⟨⟨400, "Cannot submit a new pick for a game that has already started."⟩,
            by simp [submit_pick, hmp, get_db_cursor, submit_pick_tx, hgame, hsl,
              hloop, hnone, hb]⟩
  · intro ep hep hchange
    simp only [Bool.decide_and] at hep
    rcases hsl : sub.lock with - | b
    · rcases hchange with hteam | ⟨b, hb2, -⟩
      · exact ⟨⟨400, "Your pick for this game cannot be changed because the game has already started."⟩,
          by simp [submit_pick, hmp, get_db_cursor, submit_pick_tx, hgame, hsl, hep,
            hb, hteam]⟩
      · rw [hsl] at hb2; exact absurd hb2 (by simp)
    · cases b
      · by_cases hel : ep.lock
        · exact ⟨⟨400, "Cannot unlock a game that has already started."⟩,
            by simp [submit_pick, hmp, get_db_cursor, submit_pick_tx, hgame, hsl, hep,
              hb, hel]⟩
        · have hteam : sub.picked_team ≠ ep.picked_team := by
            rcases hchange with hteam | ⟨b, hb2, hbne⟩
            · exact hteam
            · rw [hsl] at hb2
              cases hb2
              simp [hel] at hbne
          exact ⟨⟨400, "Your pick for this game cannot be changed because the game has already started."⟩,
            by simp [submit_pick, hmp, get_db_cursor, submit_pick_tx, hgame, hsl, hep,
              hb, hel, hteam]⟩
      · cases hloop : lock_conflict_loop caller.id sub.game_id
            (get_game_week_bounds game.game_date) now st
            (userLockedPicksWithDates st caller.id) with
        | error e =>
          exact ⟨e, by simp [submit_pick, hmp, get_db_cursor, submit_pick_tx, hgame, hsl,
            hloop, hb]⟩
        | ok st1 =>
          by_cases hel : ep.lock
          · have hteam : sub.picked_team ≠ ep.picked_team := by
              rcases hchange with hteam | ⟨b, hb2, hbne⟩
              · exact hteam
              · rw [hsl] at hb2
                cases hb2
                simp [hel] at hbne
            exact ⟨⟨400, "Your pick for this game cannot be changed because the game has already started."⟩,
              by simp [submit_pick, hmp, get_db_cursor, submit_pick_tx, hgame, hsl,
                hloop, hep, hb, hel, hteam]⟩
          · exact ⟨⟨400, "Your locked game has already started and cannot be changed."⟩,
              by simp [submit_pick, hmp, get_db_cursor, submit_pick_tx, hgame, hsl,
                hloop, hep, hb, hel]⟩
  · intro ep hep hteam hsame hinv
    simp only [Bool.decide_and] at hep
    rcases hsame with hsl | hsl
    · simp [submit_pick, hmp, get_db_cursor, submit_pick_tx, hgame, hsl, hep, hb, hteam]
    · by_cases hel : ep.lock
      · rw [hel] at hsl
        have hloop := lock_conflict_loop_id caller.id sub.game_id
          (get_game_week_bounds game.game_date) now st
          (userLockedPicksWithDates st caller.id) (hinv hsl)
        simp [submit_pick, hmp, get_db_cursor, submit_pick_tx, hgame, hsl, hloop, hep, hb,
          hteam, hel]
      · rw [Bool.not_eq_true] at hel
        rw [hel] at hsl
        simp [submit_pick, hmp, get_db_cursor, submit_pick_tx, hgame, hsl, hep, hb, hteam, hel]

/-- Witness for C6: with game 1 started exactly at `now = 20000`
(`now = game_date`), a new pick by user 2 is rejected; user 1's
attempt to change the picked team is rejected; and user 1's identical
resubmission (lock omitted) succeeds with the stored pick returned
unchanged, even while user 1's weekly lock sits on game 2 in the same
week — that started, unlocked pick plus a same-week lock elsewhere is
an ordinary one-lock-per-week state. -/
theorem submit_pick_started_guard_witness :
    (∃ e, submit_pick ⟨2, false, true⟩ ⟨1, "A", none⟩ 20000
        ⟨[⟨1, "A", "B", 0, 20000, none⟩], [⟨1, 1, "A", false, 0⟩], [], []⟩ =
      (⟨[⟨1, "A", "B", 0, 20000, none⟩], [⟨1, 1, "A", false, 0⟩], [], []⟩, .error e)) ∧
    (∃ e, submit_pick ⟨1, false, true⟩ ⟨1, "B", none⟩ 20000
        ⟨[⟨1, "A", "B", 0, 20000, none⟩], [⟨1, 1, "A", false, 0⟩], [], []⟩ =
      (⟨[⟨1, "A", "B", 0, 20000, none⟩], [⟨1, 1, "A", false, 0⟩], [], []⟩, .error e)) ∧
    (submit_pick ⟨1, false, true⟩ ⟨1, "A", none⟩ 20000
        ⟨[⟨1, "A", "B", 0, 20000, none⟩, ⟨2, "C", "D", 0, 21000, none⟩],
         [⟨1, 1, "A", false, 0⟩, ⟨1, 2, "C", true, 0⟩], [], []⟩ =
      (⟨[⟨1, "A", "B", 0, 20000, none⟩, ⟨2, "C", "D", 0, 21000, none⟩],
         [⟨1, 1, "A", false, 0⟩, ⟨1, 2, "C", true, 0⟩], [], []⟩,
        .ok (.noChangesStarted ⟨1, 1, "A", false, 0⟩))) := by
  refine ⟨?_, ?_, ?_⟩
  · exact (submit_pick_started_guard ⟨2, false, true⟩ ⟨1, "A", none⟩ 20000
      ⟨[⟨1, "A", "B", 0, 20000, none⟩], [⟨1, 1, "A", false, 0⟩], [], []⟩
      ⟨1, "A", "B", 0, 20000, none⟩ rfl rfl (by decide)).1 rfl
  · exact (submit_pick_started_guard ⟨1, false, true⟩ ⟨1, "B", none⟩ 20000
      ⟨[⟨1, "A", "B", 0, 20000, none⟩], [⟨1, 1, "A", false, 0⟩], [], []⟩
      ⟨1, "A", "B", 0, 20000, none⟩ rfl rfl (by decide)).2.1
      ⟨1, 1, "A", false, 0⟩ rfl (Or.inl (by decide))
  · exact (submit_pick_started_guard ⟨1, false, true⟩ ⟨1, "A", none⟩ 20000
      ⟨[⟨1, "A", "B", 0, 20000, none⟩, ⟨2, "C", "D", 0, 21000, none⟩],
       [⟨1, 1, "A", false, 0⟩, ⟨1, 2, "C", true, 0⟩], [], []⟩
      ⟨1, "A", "B", 0, 20000, none⟩ rfl rfl (by decide)).2.2
      ⟨1, 1, "A", false, 0⟩ rfl rfl (Or.inl rfl) (by decide)

/-! ## Claims C5 and C2 -/

/-- C5 fails on the code: `POST /update_score` — the endpoint that sets
`games.winning_team` and recomputes points — declares no authentication
dependency at all, while `get_current_admin_user` (used by the other
admin routes) would reject the same callers.  At this concrete input a
non-admin caller, and even an unauthenticated one, successfully grades
game 1 and changes the stored state. -/
theorem update_score_lacks_admin_check :
    get_current_admin_user (some ⟨9, false, true⟩) = .error ⟨403, "Not enough permissions"⟩ ∧
    get_current_admin_user none = .error ⟨401, "Could not validate credentials"⟩ ∧
    (update_score (some ⟨9, false, true⟩)
        ⟨[⟨1, "A", "B", 0, 20000, none⟩], [⟨1, 1, "A", false, 0⟩], [], [⟨1, 0⟩]⟩
        1 "A").2 = .ok "Scores updated successfully" ∧
    (update_score none
        ⟨[⟨1, "A", "B", 0, 20000, none⟩], [⟨1, 1, "A", false, 0⟩], [], [⟨1, 0⟩]⟩
        1 "A").2 = .ok "Scores updated successfully" ∧
    (update_score (some ⟨9, false, true⟩)
        ⟨[⟨1, "A", "B", 0, 20000, none⟩], [⟨1, 1, "A", false, 0⟩], [], [⟨1, 0⟩]⟩
        1 "A").1 =
      ⟨[⟨1, "A", "B", 0, 20000, some "A"⟩], [⟨1, 1, "A", false, 1⟩], [], [⟨1, 1⟩]⟩ := by
  refine ⟨rfl, rfl, rfl, rfl, ?_⟩
  simp only [update_score, update_score_body, get_db_cursor, grade_game, set_winning_team,
    update_game_scores, update_leaderboard_totals, recomputedTotal, userPickSum,
    userTiebreakerSum, scorePoints, trimTrailingSpaceStar, List.find?, List.map, List.filter]
  norm_num
  decide

/-- C2 fails on the code in the `delete_game` path: its leaderboard
rewrite sums only `picks.points_awarded` and drops the
`tiebreaker_picks` sum.  Concretely: user 1 has one pick worth 1 point
on game 1 and a tiebreaker pick worth 3 points, leaderboard total 4
(the invariant holds); an admin deletes the unrelated game 2, after
which the stored total is 1 while the invariant demands
`SUM(picks) + SUM(tiebreaker_picks) = 4`. -/
theorem delete_game_drops_tiebreaker_points :
    (delete_game (some ⟨2, true, true⟩) 2
        ⟨[⟨1, "A", "B", 0, 20000, some "A"⟩, ⟨2, "C", "D", 0, 20000, none⟩],
         [⟨1, 1, "A", false, 1⟩], [⟨1, 1, "42", 3⟩], [⟨1, 4⟩]⟩).1.leaderboard
      = [⟨1, 1⟩] ∧
    (let st' := (delete_game (some ⟨2, true, true⟩) 2
        ⟨[⟨1, "A", "B", 0, 20000, some "A"⟩, ⟨2, "C", "D", 0, 20000, none⟩],
         [⟨1, 1, "A", false, 1⟩], [⟨1, 1, "42", 3⟩], [⟨1, 4⟩]⟩).1
     (userPickSum st'.picks 1 : Rat) + userTiebreakerSum st'.tiebreaker_picks 1 = 4) ∧
    ((1 : Rat) ≠ 4) := by
  refine ⟨rfl, ?_, by norm_num⟩
  show (userPickSum [⟨1, 1, "A", false, 1⟩] 1 : Rat) + userTiebreakerSum [⟨1, 1, "42", 3⟩] 1 = 4
  norm_num [userPickSum, userTiebreakerSum]

/-! ## Claim C9: rollback on error for the modelled mutating
transactions -/

/-- C9: for each modelled mutating endpoint, all of its writes happen
in the single `get_db_cursor(commit=True)` transaction of the request,
and when the body raises at any point the committed state is exactly
the initial state — no partial pick, score or leaderboard update
persists. -/
theorem mutating_requests_roll_back_on_error :
    (∀ (u : Nat) (sub : PickSubmission) (now : Nat) (st : DBState) (e : Err),
      submit_pick_tx u sub now st = .error e →
      (get_db_cursor true st (submit_pick_tx u sub now)).1 = st) ∧
    (∀ (gid : Nat) (w : String) (st : DBState) (e : Err),
      update_score_body gid w st = .error e →
      (get_db_cursor true st (update_score_body gid w)).1 = st) ∧
    (∀ (gid : Nat) (st : DBState) (e : Err),
      delete_game_body gid st = .error e →
      (get_db_cursor true st (delete_game_body gid)).1 = st) ∧
    (∀ (uid tid : Nat) (pts : Rat) (st : DBState) (e : Err),
      update_tiebreaker_points_body uid tid pts st = .error e →
      (get_db_cursor true st (update_tiebreaker_points_body uid tid pts)).1 = st) := by
  refine ⟨?_, ?_, ?_, ?_⟩
  · intro u sub now st e h
    unfold get_db_cursor
    rw [h]
  · intro gid w st e h
    unfold get_db_cursor
    rw [h]
  · intro gid st e h
    unfold get_db_cursor
    rw [h]
  · intro uid tid pts st e h
    unfold get_db_cursor
    rw [h]

/-- Witness for C9: a pick submitted for a missing game errors with
404, and the committed state is exactly the initial (empty) state. -/
theorem mutating_requests_roll_back_on_error_witness :
    (submit_pick_tx 1 ⟨1, "A", none⟩ 0 ⟨[], [], [], []⟩
        = .error ⟨404, "Game not found"⟩) ∧
    (get_db_cursor true ⟨[], [], [], []⟩ (submit_pick_tx 1 ⟨1, "A", none⟩ 0)).1
      = ⟨[], [], [], []⟩ :=
  ⟨rfl, mutating_requests_roll_back_on_error.1 1 ⟨1, "A", none⟩ 0 ⟨[], [], [], []⟩
    ⟨404, "Game not found"⟩ rfl⟩

end MarchMadness
